import Mathlib

/-!
Verification development for the repository synchronization and publication
workflow of the TDS-Project-1 service.

The embedding models:
* `createOrUpdateRepo` (app/github_utils.py): repository resolution,
  the per-file reconciliation loop with its delete-then-recreate
  compensation, README/LICENSE scaffolding, GitHub Pages enablement and
  rebuild triggering, and the latest-commit read with its "unknown"
  sentinel.  Remote state is an association list from path to file
  (content plus SHA concurrency token); every remote file operation
  consumes one tick of an injected fault schedule (`fault : Nat → Bool`)
  modelling transient remote errors / stale-token rejections, and appends
  an event to a log so that ordering and abort properties can be stated.
* `notify_evaluation_api_with_retry` (app/main.py): the deployment
  notifier with its retry/backoff loop, driven by a response schedule.
* the pure extraction/validation tail of `generate_app_code`
  (app/llm_generator.py), over strings modelled as `List Char`.
-/

/-- A remote file: its text content and its SHA concurrency token
(modelled as a natural number; a fresh token is drawn from a counter on
every successful write). -/
structure RFile where
  content : String
  sha : Nat
deriving DecidableEq, Repr

/-- Remote repository content: association list from path to file. -/
abbrev Remote := List (String × RFile)

/-- Events recorded by the model, one per remote operation, used to state
ordering / abort / exactly-once properties.  `read/update/create/delete`
are the reconciliation-loop operations (github_utils.py lines 85-160),
`sRead/sCreate` the scaffold operations (lines 162-197), `pagesEnable`
the Pages enablement call (lines 209-239), `commitsRead` the latest-commit
read (lines 241-253) and `pagesBuild` the rebuild trigger (lines 255-274). -/
inductive Ev where
  | read (p : String) (found : Bool)
  | update (p : String) (ok : Bool)
  | create (p : String) (ok : Bool)
  | delete (p : String) (ok : Bool)
  | sRead (p : String) (found : Bool)
  | sCreate (p : String) (ok : Bool)
  | pagesEnable (ok : Bool)
  | commitsRead (sha : String)
  | pagesBuild (ok : Bool)
deriving DecidableEq, Repr

/-- Whether an event belongs to the user-file reconciliation loop. -/
def Ev.isFileEv : Ev → Bool
  | .read _ _ => true
  | .update _ _ => true
  | .create _ _ => true
  | .delete _ _ => true
  | _ => false

/-- Whether an event belongs to the README/LICENSE scaffold steps. -/
def Ev.isScaffoldEv : Ev → Bool
  | .sRead _ _ => true
  | .sCreate _ _ => true
  | _ => false

/-- Whether an event is a scaffold event for a given path. -/
def Ev.isScaffoldFor (path : String) : Ev → Bool
  | .sRead p _ => p = path
  | .sCreate p _ => p = path
  | _ => false

/-- Whether an event is a hosting action (Pages enable or rebuild). -/
def Ev.isHostingEv : Ev → Bool
  | .pagesEnable _ => true
  | .pagesBuild _ => true
  | _ => false

/-- Whether an event is the latest-commit read. -/
def Ev.isCommitsEv : Ev → Bool
  | .commitsRead _ => true
  | _ => false

/-- Whether an event is a reconciliation-loop delete attempt. -/
def Ev.isDeleteEv : Ev → Bool
  | .delete _ _ => true
  | _ => false

/-- Whether an event is a reconciliation-loop create attempt. -/
def Ev.isCreateEv : Ev → Bool
  | .create _ _ => true
  | _ => false

/-- World state threaded through one synchronization call: the remote
content, a counter supplying fresh SHA tokens, the fault-schedule clock
(one tick per remote file operation), and the event log. -/
structure W where
  remote : Remote
  ctr : Nat
  clk : Nat
  log : List Ev
deriving DecidableEq, Repr

/-- Look up a file by path (first match). -/
def findFile : Remote → String → Option RFile
  | [], _ => none
  | (k, f) :: t, p => if k = p then some f else findFile t p

/-- Look up a file's content by path. -/
def lookupC (r : Remote) (p : String) : Option String :=
  (findFile r p).map RFile.content

/-- Overwrite the file stored at a path (used by update, which the remote
performs in place). -/
def setContent : Remote → String → RFile → Remote
  | [], _, _ => []
  | (k, f0) :: t, p, f =>
    if k = p then (p, f) :: setContent t p f else (k, f0) :: setContent t p f

/-- Remove the file stored at a path. -/
def removeFile : Remote → String → Remote
  | [], _ => []
  | (k, f) :: t, p => if k = p then removeFile t p else (k, f) :: removeFile t p

/-- `repo.get_contents`: read a file and its token.  A fault (the remote
raising) is indistinguishable at the call site from the file being
absent, exactly as in the source where every exception from
`get_contents` is treated as "file doesn't exist" or as a failed fresh
read.  The event constructor is a parameter because the reconciliation
loop and the scaffold steps log distinct event kinds. -/
def opRead (fault : Nat → Bool) (mk : String → Bool → Ev) (w : W) (p : String) :
    Option RFile × W :=
  let res := if fault w.clk then none else findFile w.remote p
  (res, { w with clk := w.clk + 1, log := w.log ++ [mk p res.isSome] })

/-- `repo.update_file`: succeeds when no fault fires and the supplied
concurrency token matches the stored one; on success the content is
replaced in place and a fresh token is drawn. -/
def opUpdate (fault : Nat → Bool) (w : W) (p c : String) (sha : Nat) : Bool × W :=
  let ok := !fault w.clk &&
    (match findFile w.remote p with
     | some f => f.sha = sha
     | none => false)
  if ok then
    (true, ⟨setContent w.remote p ⟨c, w.ctr⟩, w.ctr + 1, w.clk + 1, w.log ++ [Ev.update p true]⟩)
  else
    (false, { w with clk := w.clk + 1, log := w.log ++ [Ev.update p false] })

/-- `repo.create_file`: succeeds when no fault fires and the path is
absent (the remote rejects creating an existing path). -/
def opCreate (fault : Nat → Bool) (mk : String → Bool → Ev) (w : W) (p c : String) :
    Bool × W :=
  let ok := !fault w.clk && (findFile w.remote p).isNone
  if ok then
    (true, ⟨w.remote ++ [(p, ⟨c, w.ctr⟩)], w.ctr + 1, w.clk + 1, w.log ++ [mk p true]⟩)
  else
    (false, { w with clk := w.clk + 1, log := w.log ++ [mk p false] })

/-- `repo.delete_file`: succeeds when no fault fires and the supplied
token matches the stored one. -/
def opDelete (fault : Nat → Bool) (w : W) (p : String) (sha : Nat) : Bool × W :=
  let ok := !fault w.clk &&
    (match findFile w.remote p with
     | some f => f.sha = sha
     | none => false)
  if ok then
    (true, ⟨removeFile w.remote p, w.ctr, w.clk + 1, w.log ++ [Ev.delete p true]⟩)
  else
    (false, { w with clk := w.clk + 1, log := w.log ++ [Ev.delete p false] })

/-- One iteration of the reconciliation loop body (github_utils.py lines
87-153) for a single desired file: read the existing file; if present,
update with the just-read token, falling back on rejection to the
compensating re-read / delete / recreate path; if absent, create.
Returns whether the file succeeded, plus the new world. -/
def processFile (fault : Nat → Bool) (w : W) (p c : String) : Bool × W :=
  let rd := opRead fault Ev.read w p
  match rd.1 with
  | some f =>
    let up := opUpdate fault rd.2 p c f.sha
    if up.1 then (true, up.2)
    else
      let rd2 := opRead fault Ev.read up.2 p
      match rd2.1 with
      | some f2 =>
        let del := opDelete fault rd2.2 p f2.sha
        if del.1 then opCreate fault Ev.create del.2 p c
        else (false, del.2)
      | none => (false, rd2.2)
  | none => opCreate fault Ev.create rd.2 p c

/-- The reconciliation loop over the desired file set (github_utils.py
lines 85-160): a failed file aborts the whole call with an error when it
is the critical entry point `index.html`, and is otherwise skipped.
Returns `(some errorMessage, w)` on abort and `(none, w)` on completion. -/
def reconcile (fault : Nat → Bool) (w : W) : List (String × String) → Option String × W
  | [] => (none, w)
  | (p, c) :: rest =>
    let r := processFile fault w p c
    if r.1 then reconcile fault r.2 rest
    else if p = "index.html" then
      (some ("Critical file " ++ p ++ " failed to update"), r.2)
    else reconcile fault r.2 rest

/-- The fault-free schedule: every remote operation succeeds. -/
def noFault : Nat → Bool := fun _ => false

/-- Content desired for a path by a file list (last occurrence wins;
a Python dict has unique keys, so normally the only occurrence). -/
def lastContent : List (String × String) → String → Option String
  | [], _ => none
  | (p, c) :: t, q =>
    match lastContent t q with
    | some c' => some c'
    | none => if p = q then some c else none

/-- Environment of one synchronization call: credentials, the timestamp
used for CREATE-mode naming, the outcomes of the repository-level remote
calls, the initial remote file content, the fault schedule for file
operations, and the outcomes of the Pages / commit-listing requests
(`none` models the request raising; `some code` an HTTP status,
`some (some sha)` / `some none` a commit list with / without commits). -/
structure GhEnv where
  githubUser : Option String
  githubToken : Option String
  timestamp : String
  createRepoOk : Bool
  getRepoOk : String → Bool
  listReposOk : Bool
  userRepos : List String
  htmlUrl : String → String
  initRemote : Remote
  fault : Nat → Bool
  pagesEnable : Option Nat
  commits : Option (Option String)
  pagesBuild : Option Nat

/-- `s.split("/")` on character lists: split at every slash (the
separator is a single character, so Python's split and this agree). -/
def splitSlash : List Char → List (List Char)
  | [] => [[]]
  | c :: rest =>
    if c = '/' then [] :: splitSlash rest
    else
      match splitSlash rest with
      | [] => [[c]]
      | h :: t => (c :: h) :: t

/-- `repo_url.rstrip("/").split("/")[-1]`: the trailing path segment of
a repository URL after stripping trailing slashes. -/
def lastSeg (url : String) : String :=
  String.mk
    ((splitSlash ((url.data.reverse.dropWhile (fun ch => ch = '/')).reverse)).getLastD [])

/-- `name.startswith(task_name)`: prefix test on the character
sequences (kernel-evaluable, unlike `String.isPrefixOf`). -/
def strIsPrefixOf (p s : String) : Bool := p.data.isPrefixOf s.data

/-- UPDATE-mode fallback (github_utils.py lines 43-59 and 61-78): list the
caller's repositories, most-recently-updated first (`userRepos` is the
listing as returned by `get_repos(sort="updated", direction="desc")`),
and adopt the first whose name has the task identifier as a prefix; the
"Could not find repo" error raised when nothing matches is itself caught
and rewrapped as "Failed to find repo: ...". -/
def searchByTask (env : GhEnv) (taskName : String) : Except String String :=
  if env.listReposOk then
    match env.userRepos.find? (fun r => strIsPrefixOf taskName r) with
    | some r => Except.ok r
    | none =>
      Except.error ("Failed to find repo: Could not find repo for task " ++ taskName)
  else Except.error "Failed to find repo"

/-- Repository resolution (github_utils.py lines 23-78): CREATE mode
derives `{task}-{timestamp}` and creates the repository; UPDATE mode
takes the trailing segment of the supplied URL and fetches it directly,
falling back to the most-recently-updated name-prefix search when the
fetch fails or no URL was supplied. -/
def resolveName (env : GhEnv) (taskName : String) (createNew : Bool)
    (repoUrl : Option String) : Except String String :=
  if createNew then
    if env.createRepoOk then Except.ok (taskName ++ "-" ++ env.timestamp)
    else Except.error "create_repo failed"
  else
    match repoUrl with
    | some url =>
      if env.getRepoOk (lastSeg url) then Except.ok (lastSeg url)
      else searchByTask env taskName
    | none => searchByTask env taskName

/-- Scaffold step (github_utils.py lines 162-197): skipped entirely when
the caller's desired file set already contains the path; otherwise check
existence and, if absent (or the check raised), attempt to create the
default content, ignoring any creation failure. -/
def ensureDefault (fault : Nat → Bool) (w : W) (files : List (String × String))
    (path dflt : String) : W :=
  if (files.map Prod.fst).contains path then w
  else
    let rd := opRead fault Ev.sRead w path
    match rd.1 with
    | some _ => rd.2
    | none => (opCreate fault Ev.sCreate rd.2 path dflt).2

/-- Default README content (github_utils.py line 169). -/
def defaultReadme (repoName : String) : String :=
  "# " ++ repoName ++ "\n\nAuto-generated repository.\n\nMIT License applies."

/-- Default LICENSE content (github_utils.py lines 183-192). -/
def licenseText : String :=
  "MIT License\n\nCopyright (c) 2025\n\nPermission is hereby granted, free of charge, to any person obtaining a copy\nof this software and associated documentation files (the \"Software\"), to deal\nin the Software without restriction, including without limitation the rights\nto use, copy, modify, merge, publish, distribute, sublicense, and/or sell copies\nof the Software, and to permit persons to whom the Software is furnished to do so.\n"

/-- Whether a Pages API response counts as success: HTTP status in
{200, 201, 204}; a raised request (`none`) is not a success. -/
def pagesOk (resp : Option Nat) : Bool :=
  match resp with
  | some code => code == 200 || code == 201 || code == 204
  | none => false

/-- Latest-commit read (github_utils.py lines 241-253): an exception or
an empty commit list both yield the sentinel "unknown". -/
def commitShaOf (c : Option (Option String)) : String :=
  match c with
  | some (some s) => s
  | some none => "unknown"
  | none => "unknown"

/-- The triple returned by `create_or_update_repo`:
`(repo.html_url, latest_commit_sha, pages_url)`. -/
structure SyncResult where
  repoUrl : String
  commitSha : String
  pagesUrl : String
deriving DecidableEq, Repr

/-- The initial world of a synchronization call. -/
def W.init (env : GhEnv) : W := ⟨env.initRemote, 0, 0, []⟩

/-- The tail of a synchronization call after a successful reconciliation
(github_utils.py lines 162-281): README scaffold, LICENSE scaffold,
Pages enablement in CREATE mode, the latest-commit read, and the Pages
rebuild trigger in UPDATE mode — in that order. -/
def syncTail (env : GhEnv) (files : List (String × String)) (createNew : Bool)
    (repoName : String) (w1 : W) : W :=
  let w2 := ensureDefault env.fault w1 files "README.md" (defaultReadme repoName)
  let w3 := ensureDefault env.fault w2 files "LICENSE" licenseText
  let w4 := if createNew then
      { w3 with log := w3.log ++ [Ev.pagesEnable (pagesOk env.pagesEnable)] }
    else w3
  let w5 := { w4 with log := w4.log ++ [Ev.commitsRead (commitShaOf env.commits)] }
  if createNew then w5
  else { w5 with log := w5.log ++ [Ev.pagesBuild (pagesOk env.pagesBuild)] }

/-- The whole of `create_or_update_repo` (github_utils.py lines 7-281):
credential check, resolution, the reconciliation loop (aborting the call
only on a critical-file failure), README/LICENSE scaffolding, Pages
enablement (CREATE mode only), the latest-commit read, and the Pages
rebuild trigger (UPDATE mode only, after the commit read).  Returns the
call's outcome together with the final world, whose log records every
remote operation in order. -/
def createOrUpdateRepo (env : GhEnv) (taskName : String)
    (files : List (String × String)) (createNew : Bool) (repoUrl : Option String) :
    Except String SyncResult × W :=
  let w0 := W.init env
  match env.githubUser, env.githubToken with
  | some u, some tk =>
    if u = "" ∨ tk = "" then
      (Except.error "Please set GITHUB_USER and GITHUB_TOKEN in your .env file.", w0)
    else
      match resolveName env taskName createNew repoUrl with
      | Except.error e => (Except.error e, w0)
      | Except.ok repoName =>
        let pagesUrl := "https://" ++ u ++ ".github.io/" ++ repoName ++ "/"
        match reconcile env.fault w0 files with
        | (some e, w1) => (Except.error e, w1)
        | (none, w1) =>
          (Except.ok ⟨env.htmlUrl repoName, commitShaOf env.commits, pagesUrl⟩,
            syncTail env files createNew repoName w1)
  | _, _ =>
    (Except.error "Please set GITHUB_USER and GITHUB_TOKEN in your .env file.", w0)

/-- Outcome of one POST to the evaluation callback URL: an HTTP status,
a timeout, or another request exception. -/
inductive Resp where
  | status (code : Nat)
  | timeout
  | exc
deriving DecidableEq, Repr

/-- Whether a response makes `notify_evaluation_api_with_retry` retry:
server errors (status >= 500), timeouts, and other exceptions do; any
other status terminates the loop (200 with success, the rest without). -/
def retryable : Resp → Bool
  | .status c => 500 ≤ c
  | .timeout => true
  | .exc => true

/-- The retry loop of `notify_evaluation_api_with_retry` (app/main.py
lines 30-68), driven by the schedule of responses the callback URL
produces.  Returns (success, delays slept between attempts, number of
attempts made).  A sleep of `2 ^ attempt` happens only when another
attempt will follow (`attempt < max_retries - 1`). -/
def notifyAux (resps : Nat → Resp) (maxRetries attempt : Nat) : Bool × List Nat × Nat :=
  if _hlt : attempt < maxRetries then
    match resps attempt with
    | .status 200 => (true, [], attempt + 1)
    | r =>
      if retryable r then
        if attempt < maxRetries - 1 then
          let rest := notifyAux resps maxRetries (attempt + 1)
          (rest.1, 2 ^ attempt :: rest.2.1, rest.2.2)
        else (false, [], attempt + 1)
      else (false, [], attempt + 1)
  else (false, [], attempt)
termination_by maxRetries - attempt
decreasing_by omega

/-- `notify_evaluation_api_with_retry(evaluation_url, payload, max_retries)`
(app/main.py lines 18-68): an empty (falsy) URL returns False without any
attempt; otherwise the retry loop runs from attempt 0. -/
def notifyWithRetry (url : String) (resps : Nat → Resp) (maxRetries : Nat) :
    Bool × List Nat × Nat :=
  if url = "" then (false, [], 0) else notifyAux resps maxRetries 0

/-- Python strings for the generator extraction logic, modelled as
character lists. -/
abbrev Chars := List Char

/-- `s.find(pat)`: index of the first occurrence of `pat` in `s`
(`none` models Python's -1). -/
def strFind (pat : Chars) : Chars → Option Nat
  | [] => if pat.isPrefixOf ([] : Chars) then some 0 else none
  | c :: rest =>
    if pat.isPrefixOf (c :: rest) then some 0
    else (strFind pat rest).map (fun i => i + 1)

/-- `s.rfind(pat)`: index of the last occurrence of `pat` in `s`. -/
def strRFind (pat : Chars) : Chars → Option Nat
  | [] => if pat.isPrefixOf ([] : Chars) then some 0 else none
  | c :: rest =>
    match (strRFind pat rest).map (fun i => i + 1) with
    | some j => some j
    | none => if pat.isPrefixOf (c :: rest) then some 0 else none

/-- `s.strip()`: remove leading and trailing whitespace. -/
def strStrip (s : Chars) : Chars :=
  ((s.dropWhile Char.isWhitespace).reverse.dropWhile Char.isWhitespace).reverse

/-- `pat in s`: substring containment. -/
def strContains (s pat : Chars) : Bool :=
  (strFind pat s).isSome

/-- The default README synthesized when the model response holds no
separate README section (app/llm_generator.py lines 202-230). -/
def fallbackReadme : Chars :=
  ("# Application\n\n## Overview\n\nThis is an auto-generated application built with HTML, CSS, and JavaScript.\n\n## Features\n\n- Responsive design\n- Cross-browser compatible\n- Production-ready\n- Self-contained with embedded assets\n\n## Installation & Setup\n\n1. Clone the repository\n2. Open `index.html` in a web browser\n3. No additional dependencies required\n\n## Usage\n\nSimply open the application in your browser.\n\n## Technical Details\n\nBuilt with vanilla HTML, CSS, and JavaScript.\n\n## Code Explanation\n\nSingle-page architecture with inline styling and scripts.\n\n## License\n\nMIT License\n\nCopyright (c) 2025\n").data

/-- The HTML validation step of `generate_app_code`
(app/llm_generator.py lines 232-237): wrap the content in a document
skeleton unless it already starts with a document marker, then append a
closing tag unless one is already at the end. -/
def validateHtml (s : Chars) : Chars :=
  let s1 :=
    if "<!DOCTYPE html>".data.isPrefixOf s || "<html>".data.isPrefixOf s then s
    else "<!DOCTYPE html>\n<html>\n".data ++ s ++ "\n</html>".data
  if "</html>".data.isSuffixOf s1 then s1 else s1 ++ "\n</html>".data

/-- The README validation step of `generate_app_code`
(app/llm_generator.py lines 239-244): prepend a default heading unless
the content starts with `#`, then append a license section unless one
is mentioned. -/
def validateReadme (s : Chars) : Chars :=
  let s1 := if "#".data.isPrefixOf s then s else "# Application\n\n".data ++ s
  if strContains s1 "MIT License".data || strContains s1 "License".data then s1
  else s1 ++ "\n\n## License\n\nMIT License\n\nCopyright (c) 2025".data

/-- The pure extraction/validation tail of `generate_app_code`
(app/llm_generator.py lines 178-257): locate the HTML document between
the first start marker and the last `</html>`, split off a README when a
heading marker follows the HTML, then enforce the start/end markers on
the HTML and the leading `#` on the README.  `none` models the
`return {}` taken when no HTML start marker is found. -/
def extractFiles (raw : Chars) : Option (Chars × Chars) :=
  let docType : Chars := "<!DOCTYPE html>".data
  let htmlOpen : Chars := "<html>".data
  let htmlClose : Chars := "</html>".data
  let htmlStart := match strFind docType raw with
    | some i => some i
    | none => strFind htmlOpen raw
  match htmlStart with
  | none => none
  | some hs =>
    let htmlEnd := strRFind htmlClose raw
    let cleanHtml := match htmlEnd with
      | none => strStrip (raw.drop hs)
      | some he => strStrip ((raw.drop hs).take (he + 7 - hs))
    let readmeStart := strFind "# ".data (raw.map Char.toLower)
    let rsI : Int := match readmeStart with
      | some i => (i : Int)
      | none => -1
    let heI : Int := match htmlEnd with
      | some i => (i : Int)
      | none => -1
    let readmePart : Chars :=
      if rsI > heI then strStrip (raw.drop (readmeStart.getD 0))
      else fallbackReadme
    some (validateHtml cleanHtml, validateReadme readmePart)

/-- The mapping returned by `generate_app_code` on its success path
(app/llm_generator.py lines 254-257): exactly the two keys `index.html`
and `README.md`. -/
def generateFiles (raw : Chars) : Option (List (String × Chars)) :=
  (extractFiles raw).map (fun pr => [("index.html", pr.1), ("README.md", pr.2)])

/-- The event trace the reconciliation loop emits for a desired file set
whose every path already exists remotely and whose operations all
succeed: per file one read that finds it and one in-place update. -/
def runTwoLog : List (String × String) → List Ev
  | [] => []
  | (p, _) :: t => Ev.read p true :: Ev.update p true :: runTwoLog t

/-- A concrete fault schedule used to instantiate theorems: only the
second remote operation (tick 1) fails. -/
def witFault : Nat → Bool := fun n => n == 1

/-- A concrete starting world used to instantiate theorems: one remote
file `a.txt` with token 5. -/
def witW : W := ⟨[("a.txt", ⟨"old", 5⟩)], 0, 0, []⟩

/-- `LogExt P w w'`: the log of `w'` extends the log of `w` by events
all satisfying `P`. -/
def LogExt (P : Ev → Bool) (w w' : W) : Prop :=
  ∃ δ : List Ev, w'.log = w.log ++ δ ∧ ∀ e ∈ δ, P e = true

/-- A concrete CREATE-mode environment: fault-free remote, commit
listing raises (sentinel case), Pages enablement returns 201. -/
def witEnvC : GhEnv :=
  ⟨some "u", some "t", "20250101000000", true, fun _ => false, true, [],
   fun n => "https://github.com/u/" ++ n, [], noFault, some 201, none, some 201⟩

/-- A concrete UPDATE-mode environment: the repository URL resolves,
README/LICENSE already exist remotely, the commit listing returns a SHA,
and the Pages rebuild returns 201. -/
def witEnvU : GhEnv :=
  ⟨some "u", some "t", "ts", true, fun _ => true, true, [],
   fun n => n, [("README.md", ⟨"r", 1⟩), ("LICENSE", ⟨"l", 2⟩)],
   noFault, none, some (some "abc"), some 201⟩

/-- A concrete environment whose every remote file operation faults. -/
def witEnvF : GhEnv :=
  ⟨some "u", some "t", "ts", true, fun _ => false, true, [],
   fun n => n, [], fun _ => true, none, some (some "abc"), none⟩

/-- A concrete UPDATE-mode environment where the URL fetch fails and no
listed repository name starts with the task identifier. -/
def witEnvN : GhEnv :=
  ⟨some "u", some "t", "ts", true, fun _ => false, true, ["other-repo"],
   fun n => n, [], noFault, none, none, none⟩

theorem findFile_setContent_ne (p q : String) (f : RFile) (h : q ≠ p) :
    ∀ r : Remote, findFile (setContent r p f) q = findFile r q := by
  intro r
  induction r with
  | nil => rfl
  | cons e t ih =>
    obtain ⟨k, f0⟩ := e
    by_cases hk : k = p
    · subst hk
      simp only [setContent, if_pos rfl, findFile]
      rw [if_neg (fun hq : k = q => h hq.symm), if_neg (fun hq : k = q => h hq.symm)]
      exact ih
    · simp only [setContent, if_neg hk, findFile]
      by_cases hq : k = q
      · simp [hq]
      · simp only [if_neg hq]
        exact ih

theorem findFile_setContent_self (p : String) (f : RFile) :
    ∀ r : Remote, (findFile r p).isSome → findFile (setContent r p f) p = some f := by
  intro r
  induction r with
  | nil => intro h; simp [findFile] at h
  | cons e t ih =>
    obtain ⟨k, f0⟩ := e
    intro h
    by_cases hk : k = p
    · subst hk
      simp [setContent, findFile]
    · simp only [findFile, if_neg hk] at h
      simp only [setContent, if_neg hk, findFile, if_neg hk]
      exact ih h

theorem findFile_append_new (p q : String) (f : RFile) :
    ∀ r : Remote, findFile r p = none →
      findFile (r ++ [(p, f)]) q = if q = p then some f else findFile r q := by
  intro r
  induction r with
  | nil =>
    intro _
    by_cases hq : q = p
    · subst hq; simp [findFile]
    · simp only [List.nil_append, findFile, if_neg hq]
      rw [if_neg (fun hp : p = q => hq hp.symm)]
  | cons e t ih =>
    obtain ⟨k, f0⟩ := e
    intro h
    by_cases hk : k = p
    · simp [findFile, hk] at h
    · simp only [findFile, if_neg hk] at h
      by_cases hq : k = q
      · subst hq
        simp only [List.cons_append, findFile, if_pos rfl]
        rw [if_neg (fun hqp : k = p => hk hqp)]
        simp [findFile]
      · simp only [List.cons_append, findFile, if_neg hq]
        exact ih h

theorem findFile_removeFile (p q : String) :
    ∀ r : Remote, findFile (removeFile r p) q = if q = p then none else findFile r q := by
  intro r
  induction r with
  | nil => simp [removeFile, findFile]
  | cons e t ih =>
    obtain ⟨k, f0⟩ := e
    by_cases hk : k = p
    · subst hk
      by_cases hq : q = k
      · subst hq
        simp [removeFile, findFile, ih]
      · have hq2 : ¬k = q := fun h => hq h.symm
        simp [removeFile, findFile, ih, hq, hq2]
    · by_cases hq : k = q
      · subst hq
        have hqp : ¬k = p := hk
        simp [removeFile, findFile, hk, hqp]
      · simp [removeFile, findFile, hk, hq, ih]

theorem processFile_noFault_found (w : W) (p c : String) (f : RFile)
    (hf : findFile w.remote p = some f) :
    processFile noFault w p c =
      (true, ⟨setContent w.remote p ⟨c, w.ctr⟩, w.ctr + 1, w.clk + 2,
              w.log ++ [Ev.read p true, Ev.update p true]⟩) := by
  simp [processFile, opRead, opUpdate, noFault, hf]

theorem processFile_noFault_absent (w : W) (p c : String)
    (hf : findFile w.remote p = none) :
    processFile noFault w p c =
      (true, ⟨w.remote ++ [(p, ⟨c, w.ctr⟩)], w.ctr + 1, w.clk + 2,
              w.log ++ [Ev.read p false, Ev.create p true]⟩) := by
  simp [processFile, opRead, opCreate, noFault, hf]

theorem processFile_noFault_content (w : W) (p c q : String) :
    lookupC (processFile noFault w p c).2.remote q =
      if q = p then some c else lookupC w.remote q := by
  cases hf : findFile w.remote p with
  | some f =>
    rw [processFile_noFault_found w p c f hf]
    by_cases hq : q = p
    · subst hq
      simp only [lookupC, if_pos rfl]
      rw [findFile_setContent_self _ ⟨c, w.ctr⟩ w.remote (by simp [hf])]
      rfl
    · simp [lookupC, findFile_setContent_ne p q ⟨c, w.ctr⟩ hq, hq]
  | none =>
    rw [processFile_noFault_absent w p c hf]
    simp only [lookupC, findFile_append_new p q ⟨c, w.ctr⟩ w.remote hf]
    by_cases hq : q = p <;> simp [hq]

theorem processFile_noFault_ok (w : W) (p c : String) :
    (processFile noFault w p c).1 = true := by
  cases hf : findFile w.remote p with
  | some f => rw [processFile_noFault_found w p c f hf]
  | none => rw [processFile_noFault_absent w p c hf]

theorem reconcile_noFault_ok (F : List (String × String)) :
    ∀ w, (reconcile noFault w F).1 = none := by
  induction F with
  | nil => intro w; rfl
  | cons pc t ih =>
    intro w
    obtain ⟨p, c⟩ := pc
    simp only [reconcile, processFile_noFault_ok, if_pos]
    exact ih _

theorem lastContent_isSome_of_mem (p c : String) :
    ∀ F : List (String × String), (p, c) ∈ F → (lastContent F p).isSome := by
  intro F
  induction F with
  | nil => intro h; simp at h
  | cons pc t ih =>
    intro h
    obtain ⟨p', c'⟩ := pc
    rcases List.mem_cons.mp h with h1 | h1
    · cases h1
      simp only [lastContent]
      cases lastContent t p with
      | some c2 => simp
      | none => simp
    · simp only [lastContent]
      cases hl : lastContent t p with
      | some c2 => simp
      | none =>
        have := ih h1
        rw [hl] at this
        simp at this

theorem reconcile_noFault_content (F : List (String × String)) :
    ∀ w q, lookupC (reconcile noFault w F).2.remote q =
      (match lastContent F q with
       | some c => some c
       | none => lookupC w.remote q) := by
  induction F with
  | nil => intro w q; rfl
  | cons pc t ih =>
    intro w q
    obtain ⟨p, c⟩ := pc
    simp only [reconcile, processFile_noFault_ok, if_pos]
    rw [ih]
    simp only [lastContent]
    cases hl : lastContent t q with
    | some c2 => simp
    | none =>
      simp only [processFile_noFault_content]
      by_cases hq : q = p
      · subst hq; simp
      · rw [if_neg hq, if_neg (fun h : p = q => hq h.symm)]

theorem reconcile_noFault_update_log (F : List (String × String)) :
    ∀ w, (∀ pc ∈ F, (lookupC w.remote pc.1).isSome) →
      (reconcile noFault w F).2.log = w.log ++ runTwoLog F := by
  induction F with
  | nil => intro w _; simp [reconcile, runTwoLog]
  | cons pc t ih =>
    intro w h
    obtain ⟨p, c⟩ := pc
    have hp : (lookupC w.remote p).isSome := h (p, c) (List.mem_cons_self _ _)
    obtain ⟨f, hf⟩ : ∃ f, findFile w.remote p = some f := by
      cases hff : findFile w.remote p with
      | some f => exact ⟨f, rfl⟩
      | none => rw [lookupC, hff] at hp; simp at hp
    simp only [reconcile, processFile_noFault_ok, if_pos]
    rw [ih]
    · rw [processFile_noFault_found w p c f hf]
      simp [runTwoLog]
    · intro pc2 h2
      rw [processFile_noFault_content]
      by_cases hq : pc2.1 = p
      · simp [hq]
      · rw [if_neg hq]
        exact h pc2 (List.mem_cons_of_mem _ h2)

/-- Claim C1: running the reconciliation loop twice in succession with
the same desired file set, under fault-free remote behavior, leaves the
remote with exactly the same per-path contents as running it once; on
the second run every desired path is found remotely and updated in
place with the just-read token (the trace is read-found / update-ok per
file, with no create and no delete), so nothing is created twice. -/
theorem c1_idempotent_reconciliation (F : List (String × String)) (w : W) :
    (reconcile noFault w F).1 = none ∧
    (reconcile noFault (reconcile noFault w F).2 F).1 = none ∧
    (∀ q, lookupC (reconcile noFault (reconcile noFault w F).2 F).2.remote q =
      lookupC (reconcile noFault w F).2.remote q) ∧
    (reconcile noFault (reconcile noFault w F).2 F).2.log =
      (reconcile noFault w F).2.log ++ runTwoLog F := by
  refine ⟨reconcile_noFault_ok F w, reconcile_noFault_ok F _, ?_, ?_⟩
  · intro q
    rw [reconcile_noFault_content, reconcile_noFault_content]
    cases hl : lastContent F q with
    | some c => simp
    | none => simp
  · apply reconcile_noFault_update_log
    intro pc hpc
    rw [reconcile_noFault_content]
    cases hl : lastContent F pc.1 with
    | some c => simp
    | none =>
      have := lastContent_isSome_of_mem pc.1 pc.2 F (by exact hpc)
      rw [hl] at this
      simp at this

/-- Claim C3: for a file that exists remotely, when the update with the
just-read token is rejected, the compensating delete-then-recreate path
runs exactly once — a fresh read, a delete with the fresh token, then a
create of the desired content — the file is declared failed only if that
single compensating attempt also fails, and no second compensating
attempt is made (at most one delete and one create appear in the trace). -/
theorem c3_stale_token_recovery (fault : Nat → Bool) (w : W) (p c : String) (f : RFile)
    (hex : findFile w.remote p = some f)
    (h1 : fault w.clk = false)
    (h2 : fault (w.clk + 1) = true) :
    ∃ comp : List Ev,
      (processFile fault w p c).2.log =
        w.log ++ [Ev.read p true, Ev.update p false] ++ comp ∧
      (((processFile fault w p c).1 = true ∧
          comp = [Ev.read p true, Ev.delete p true, Ev.create p true] ∧
          lookupC (processFile fault w p c).2.remote p = some c) ∨
        ((processFile fault w p c).1 = false ∧
          (comp = [Ev.read p false] ∨ comp = [Ev.read p true, Ev.delete p false] ∨
           comp = [Ev.read p true, Ev.delete p true, Ev.create p false]))) ∧
      comp.countP (fun e => e.isDeleteEv) ≤ 1 ∧
      comp.countP (fun e => e.isCreateEv) ≤ 1 := by
  cases hc : fault (w.clk + 1 + 1) with
  | true =>
    refine ⟨[Ev.read p false], ?_, ?_, ?_, ?_⟩
    · simp [processFile, opRead, opUpdate, opDelete, opCreate, h1, h2, hex, hc]
    · right
      refine ⟨?_, Or.inl rfl⟩
      simp [processFile, opRead, opUpdate, opDelete, opCreate, h1, h2, hex, hc]
    · simp [List.countP_cons, Ev.isDeleteEv]
    · simp [List.countP_cons, Ev.isCreateEv]
  | false =>
    cases hd : fault (w.clk + 1 + 1 + 1) with
    | true =>
      refine ⟨[Ev.read p true, Ev.delete p false], ?_, ?_, ?_, ?_⟩
      · simp [processFile, opRead, opUpdate, opDelete, opCreate, h1, h2, hex, hc, hd]
      · right
        refine ⟨?_, Or.inr (Or.inl rfl)⟩
        simp [processFile, opRead, opUpdate, opDelete, opCreate, h1, h2, hex, hc, hd]
      · simp [List.countP_cons, Ev.isDeleteEv]
      · simp [List.countP_cons, Ev.isCreateEv]
    | false =>
      cases he : fault (w.clk + 1 + 1 + 1 + 1) with
      | true =>
        refine ⟨[Ev.read p true, Ev.delete p true, Ev.create p false], ?_, ?_, ?_, ?_⟩
        · simp [processFile, opRead, opUpdate, opDelete, opCreate, h1, h2, hex, hc, hd,
            he, findFile_removeFile]
        · right
          refine ⟨?_, Or.inr (Or.inr rfl)⟩
          simp [processFile, opRead, opUpdate, opDelete, opCreate, h1, h2, hex, hc, hd,
            he, findFile_removeFile]
        · simp [List.countP_cons, Ev.isDeleteEv]
        · simp [List.countP_cons, Ev.isCreateEv]
      | false =>
        refine ⟨[Ev.read p true, Ev.delete p true, Ev.create p true], ?_, ?_, ?_, ?_⟩
        · simp [processFile, opRead, opUpdate, opDelete, opCreate, h1, h2, hex, hc, hd,
            he, findFile_removeFile]
        · left
          refine ⟨?_, rfl, ?_⟩
          · simp [processFile, opRead, opUpdate, opDelete, opCreate, h1, h2, hex, hc, hd,
              he, findFile_removeFile]
          · simp [processFile, opRead, opUpdate, opDelete, opCreate, h1, h2, hex, hc, hd,
              he, findFile_removeFile, lookupC, findFile_append_new]
        · simp [List.countP_cons, Ev.isDeleteEv]
        · simp [List.countP_cons, Ev.isCreateEv]

theorem retryable_ne_200 (r : Resp) (h : retryable r = true) : r ≠ Resp.status 200 := by
  intro he
  subst he
  simp [retryable] at h

theorem notifyAux_stop (resps : Nat → Resp) (m a : Nat) (h : ¬a < m) :
    notifyAux resps m a = (false, [], a) := by
  unfold notifyAux
  rw [dif_neg h]

theorem notifyAux_200 (resps : Nat → Resp) (m a : Nat) (h : a < m)
    (hr : resps a = Resp.status 200) :
    notifyAux resps m a = (true, [], a + 1) := by
  unfold notifyAux
  rw [dif_pos h, hr]

theorem notifyAux_retry (resps : Nat → Resp) (m a : Nat) (h : a < m)
    (hr : retryable (resps a) = true) (hlast : a < m - 1) :
    notifyAux resps m a =
      ((notifyAux resps m (a + 1)).1, 2 ^ a :: (notifyAux resps m (a + 1)).2.1,
        (notifyAux resps m (a + 1)).2.2) := by
  have h200 := retryable_ne_200 _ hr
  conv_lhs => unfold notifyAux
  rw [dif_pos h]
  split
  · exact absurd (by assumption) h200
  · rw [if_pos hr, if_pos hlast]

theorem notifyAux_giveup (resps : Nat → Resp) (m a : Nat) (h : a < m)
    (hr : retryable (resps a) = true) (hlast : ¬a < m - 1) :
    notifyAux resps m a = (false, [], a + 1) := by
  have h200 := retryable_ne_200 _ hr
  unfold notifyAux
  rw [dif_pos h]
  split
  · exact absurd (by assumption) h200
  · rw [if_pos hr, if_neg hlast]

theorem notifyAux_noRetry (resps : Nat → Resp) (m a : Nat) (h : a < m)
    (hr : retryable (resps a) = false) (h200 : resps a ≠ Resp.status 200) :
    notifyAux resps m a = (false, [], a + 1) := by
  unfold notifyAux
  rw [dif_pos h]
  split
  · exact absurd (by assumption) h200
  · rw [if_neg (by simp [hr])]

theorem notifyAux_success_iff (resps : Nat → Resp) (m : Nat) :
    ∀ a, ((notifyAux resps m a).1 = true ↔
      ∃ k, a ≤ k ∧ k < m ∧ resps k = Resp.status 200 ∧
        ∀ j, a ≤ j → j < k → retryable (resps j) = true) := by
  suffices H : ∀ n a, m - a = n →
      ((notifyAux resps m a).1 = true ↔
        ∃ k, a ≤ k ∧ k < m ∧ resps k = Resp.status 200 ∧
          ∀ j, a ≤ j → j < k → retryable (resps j) = true) by
    intro a
    exact H (m - a) a rfl
  intro n
  induction n with
  | zero =>
    intro a ha
    have hm : ¬a < m := by omega
    rw [notifyAux_stop resps m a hm]
    constructor
    · intro hfalse
      exact absurd hfalse Bool.false_ne_true
    · rintro ⟨k, hak, hkm, -, -⟩
      omega
  | succ n ih =>
    intro a ha
    have hm : a < m := by omega
    by_cases h200 : resps a = Resp.status 200
    · rw [notifyAux_200 resps m a hm h200]
      constructor
      · intro _
        exact ⟨a, Nat.le_refl a, hm, h200, fun j hj1 hj2 => absurd hj2 (by omega)⟩
      · intro _
        rfl
    · cases hr : retryable (resps a) with
      | true =>
        by_cases hlast : a < m - 1
        · rw [notifyAux_retry resps m a hm hr hlast]
          rw [ih (a + 1) (by omega)]
          constructor
          · rintro ⟨k, h1, h2, h3, h4⟩
            refine ⟨k, by omega, h2, h3, fun j hj1 hj2 => ?_⟩
            rcases Nat.eq_or_lt_of_le hj1 with he | hl
            · rw [← he]
              exact hr
            · exact h4 j hl hj2
          · rintro ⟨k, h1, h2, h3, h4⟩
            have hka : k ≠ a := fun he => h200 (he ▸ h3)
            exact ⟨k, by omega, h2, h3, fun j hj1 hj2 => h4 j (by omega) hj2⟩
        · rw [notifyAux_giveup resps m a hm hr hlast]
          constructor
          · intro hfalse
            exact absurd hfalse Bool.false_ne_true
          · rintro ⟨k, h1, h2, h3, -⟩
            have hka : k = a := by omega
            exact absurd (hka ▸ h3) h200
      | false =>
        rw [notifyAux_noRetry resps m a hm hr h200]
        constructor
        · intro hfalse
          exact absurd hfalse Bool.false_ne_true
        · rintro ⟨k, h1, h2, h3, h4⟩
          have hka : k ≠ a := fun he => h200 (he ▸ h3)
          have := h4 a (Nat.le_refl a) (by omega)
          rw [hr] at this
          exact absurd this Bool.false_ne_true

theorem notifyAux_shape (resps : Nat → Resp) (m : Nat) :
    ∀ a, a < m →
      (notifyAux resps m a).2.1 =
        (List.range' a ((notifyAux resps m a).2.2 - 1 - a)).map (fun i => 2 ^ i) ∧
      a < (notifyAux resps m a).2.2 ∧ (notifyAux resps m a).2.2 ≤ m := by
  suffices H : ∀ n a, m - a = n → a < m →
      (notifyAux resps m a).2.1 =
        (List.range' a ((notifyAux resps m a).2.2 - 1 - a)).map (fun i => 2 ^ i) ∧
      a < (notifyAux resps m a).2.2 ∧ (notifyAux resps m a).2.2 ≤ m by
    intro a hm
    exact H (m - a) a rfl hm
  intro n
  induction n with
  | zero =>
    intro a ha hm
    omega
  | succ n ih =>
    intro a ha hm
    by_cases h200 : resps a = Resp.status 200
    · rw [notifyAux_200 resps m a hm h200]
      refine ⟨?_, by show a < a + 1; omega, by show a + 1 ≤ m; omega⟩
      simp
    · cases hr : retryable (resps a) with
      | true =>
        by_cases hlast : a < m - 1
        · rw [notifyAux_retry resps m a hm hr hlast]
          obtain ⟨ih1, ih2, ih3⟩ := ih (a + 1) (by omega) (by omega)
          refine ⟨?_, by show a < (notifyAux resps m (a + 1)).2.2; omega, ih3⟩
          rw [ih1]
          have hcnt : (notifyAux resps m (a + 1)).2.2 - 1 - a =
              ((notifyAux resps m (a + 1)).2.2 - 1 - (a + 1)) + 1 := by omega
          rw [hcnt, List.range'_succ, List.map_cons]
        · rw [notifyAux_giveup resps m a hm hr hlast]
          refine ⟨?_, by show a < a + 1; omega, by show a + 1 ≤ m; omega⟩
          simp
      | false =>
        rw [notifyAux_noRetry resps m a hm hr h200]
        refine ⟨?_, by show a < a + 1; omega, by show a + 1 ≤ m; omega⟩
        simp

theorem notifyAux_stopsAt (resps : Nat → Resp) (m : Nat) :
    ∀ k a, a ≤ k → k < m →
      (∀ j, a ≤ j → j < k → retryable (resps j) = true) →
      retryable (resps k) = false → resps k ≠ Resp.status 200 →
      notifyAux resps m a =
        (false, (List.range' a (k - a)).map (fun i => 2 ^ i), k + 1) := by
  suffices H : ∀ n k a, k - a = n → a ≤ k → k < m →
      (∀ j, a ≤ j → j < k → retryable (resps j) = true) →
      retryable (resps k) = false → resps k ≠ Resp.status 200 →
      notifyAux resps m a =
        (false, (List.range' a (k - a)).map (fun i => 2 ^ i), k + 1) by
    intro k a h1 h2 h3 h4 h5
    exact H (k - a) k a rfl h1 h2 h3 h4 h5
  intro n
  induction n with
  | zero =>
    intro k a hn hak hkm hall hr h200
    have hka : k = a := by omega
    subst hka
    rw [notifyAux_noRetry resps m k hkm hr h200]
    simp
  | succ n ih =>
    intro k a hn hak hkm hall hr h200
    have halt : a < k := by omega
    have hra : retryable (resps a) = true := hall a (Nat.le_refl a) halt
    rw [notifyAux_retry resps m a (by omega) hra (by omega)]
    rw [ih k (a + 1) (by omega) (by omega) hkm
      (fun j hj1 hj2 => hall j (by omega) hj2) hr h200]
    have hcnt : k - a = (k - (a + 1)) + 1 := by omega
    rw [hcnt, List.range'_succ, List.map_cons]

/-- Claim C8 counterexample: on a callback that persistently returns
HTTP 500 the notifier makes its 5 attempts but sleeps only the four
delays 1, 2, 4, 8 between them; the 16-time-unit delay claimed as part
of the backoff schedule never occurs, because the notifier gives up
after its fifth attempt without sleeping again. -/
theorem c8_notifier_retry_policy_counterexample :
    notifyWithRetry "http://cb" (fun _ => Resp.status 500) 5 = (false, [1, 2, 4, 8], 5) ∧
    16 ∉ (notifyWithRetry "http://cb" (fun _ => Resp.status 500) 5).2.1 := by
  have h : notifyWithRetry "http://cb" (fun _ => Resp.status 500) 5 = (false, [1, 2, 4, 8], 5) := by
    unfold notifyWithRetry
    rw [if_neg (by decide)]
    rw [notifyAux_retry _ 5 0 (by decide) (by decide) (by decide)]
    rw [notifyAux_retry _ 5 1 (by decide) (by decide) (by decide)]
    rw [notifyAux_retry _ 5 2 (by decide) (by decide) (by decide)]
    rw [notifyAux_retry _ 5 3 (by decide) (by decide) (by decide)]
    rw [notifyAux_giveup _ 5 4 (by decide) (by decide) (by decide)]
    rfl
  exact ⟨h, by rw [h]; decide⟩

/-- Claim C8 (amended): the notifier retries only after a server-error
status (>= 500), a timeout, or a connection exception; it sleeps
exponential-backoff delays 2 ^ attempt between attempts — with 5
attempts these are 1, 2, 4, 8, and the 16-time-unit delay never occurs —
gives up after 5 attempts, stops immediately (without success) at the
first client-error or other non-200 non-retryable status, and returns
success exactly when some attempt receives HTTP 200. -/
theorem c8_notifier_retry_policy (url : String) (resps : Nat → Resp) (hurl : url ≠ "") :
    ((notifyWithRetry url resps 5).1 = true ↔
      ∃ k, k < 5 ∧ resps k = Resp.status 200 ∧ ∀ j, j < k → retryable (resps j) = true) ∧
    (notifyWithRetry url resps 5).2.2 ≤ 5 ∧
    (notifyWithRetry url resps 5).2.1 =
      (List.range ((notifyWithRetry url resps 5).2.2 - 1)).map (fun i => 2 ^ i) ∧
    16 ∉ (notifyWithRetry url resps 5).2.1 ∧
    (∀ k, k < 5 → (∀ j, j < k → retryable (resps j) = true) →
      retryable (resps k) = false → resps k ≠ Resp.status 200 →
      (notifyWithRetry url resps 5).1 = false ∧
        (notifyWithRetry url resps 5).2.2 = k + 1) := by
  have hnw : notifyWithRetry url resps 5 = notifyAux resps 5 0 := by
    unfold notifyWithRetry
    rw [if_neg hurl]
  rw [hnw]
  obtain ⟨hd, hlt, hle⟩ := notifyAux_shape resps 5 0 (by omega)
  have hd' : (notifyAux resps 5 0).2.1 =
      (List.range ((notifyAux resps 5 0).2.2 - 1)).map (fun i => 2 ^ i) := by
    rw [hd, Nat.sub_zero, ← List.range_eq_range']
  refine ⟨?_, hle, hd', ?_, ?_⟩
  · rw [notifyAux_success_iff]
    constructor
    · rintro ⟨k, -, h2, h3, h4⟩
      exact ⟨k, h2, h3, fun j hj => h4 j (Nat.zero_le j) hj⟩
    · rintro ⟨k, h2, h3, h4⟩
      exact ⟨k, Nat.zero_le k, h2, h3, fun j _ hj => h4 j hj⟩
  · intro h16
    obtain ⟨i, hi, hpow⟩ := List.mem_map.mp (hd' ▸ h16)
    have hi4 : i < 4 := by
      have := List.mem_range.mp hi
      omega
    have hpl : (2 : Nat) ^ i ≤ 2 ^ 3 := Nat.pow_le_pow_right (by norm_num) (by omega)
    have h8 : (2 : Nat) ^ 3 = 8 := by norm_num
    omega
  · intro k hk hall hr h200
    rw [notifyAux_stopsAt resps 5 k 0 (Nat.zero_le k) hk (fun j _ hj => hall j hj) hr h200]
    exact ⟨rfl, rfl⟩

/-- Witness for C8 (amended) at a concrete callback that immediately
returns HTTP 200. -/
theorem c8_notifier_retry_policy_witness :
    ((notifyWithRetry "http://cb" (fun _ => Resp.status 200) 5).1 = true ↔
      ∃ k, k < 5 ∧ (fun _ => Resp.status 200) k = Resp.status 200 ∧
        ∀ j, j < k → retryable ((fun _ => Resp.status 200) j) = true) ∧
    (notifyWithRetry "http://cb" (fun _ => Resp.status 200) 5).2.2 ≤ 5 ∧
    (notifyWithRetry "http://cb" (fun _ => Resp.status 200) 5).2.1 =
      (List.range ((notifyWithRetry "http://cb" (fun _ => Resp.status 200) 5).2.2 - 1)).map
        (fun i => 2 ^ i) ∧
    16 ∉ (notifyWithRetry "http://cb" (fun _ => Resp.status 200) 5).2.1 ∧
    (∀ k, k < 5 → (∀ j, j < k → retryable ((fun _ => Resp.status 200) j) = true) →
      retryable ((fun _ => Resp.status 200) k) = false →
      (fun _ => Resp.status 200) k ≠ Resp.status 200 →
      (notifyWithRetry "http://cb" (fun _ => Resp.status 200) 5).1 = false ∧
        (notifyWithRetry "http://cb" (fun _ => Resp.status 200) 5).2.2 = k + 1) :=
  c8_notifier_retry_policy "http://cb" (fun _ => Resp.status 200) (by decide)

/-- Witness for C3 at a concrete world: `a.txt` exists remotely, the
read succeeds, the update is rejected by the fault at tick 1, and the
single compensating delete-then-recreate attempt succeeds. -/
theorem c3_stale_token_recovery_witness :
    findFile witW.remote "a.txt" = some ⟨"old", 5⟩ ∧
    witFault witW.clk = false ∧
    witFault (witW.clk + 1) = true ∧
    ∃ comp : List Ev,
      (processFile witFault witW "a.txt" "new").2.log =
        witW.log ++ [Ev.read "a.txt" true, Ev.update "a.txt" false] ++ comp ∧
      (((processFile witFault witW "a.txt" "new").1 = true ∧
          comp = [Ev.read "a.txt" true, Ev.delete "a.txt" true, Ev.create "a.txt" true] ∧
          lookupC (processFile witFault witW "a.txt" "new").2.remote "a.txt" = some "new") ∨
        ((processFile witFault witW "a.txt" "new").1 = false ∧
          (comp = [Ev.read "a.txt" false] ∨
           comp = [Ev.read "a.txt" true, Ev.delete "a.txt" false] ∨
           comp = [Ev.read "a.txt" true, Ev.delete "a.txt" true, Ev.create "a.txt" false]))) ∧
      comp.countP (fun e => e.isDeleteEv) ≤ 1 ∧
      comp.countP (fun e => e.isCreateEv) ≤ 1 :=
  ⟨by decide, by decide, by decide,
    c3_stale_token_recovery witFault witW "a.txt" "new" ⟨"old", 5⟩
      (by decide) (by decide) (by decide)⟩

theorem LogExt.refl (P : Ev → Bool) (w : W) : LogExt P w w :=
  ⟨[], by simp, by simp⟩

theorem LogExt.trans {P : Ev → Bool} {w w' w'' : W}
    (h1 : LogExt P w w') (h2 : LogExt P w' w'') : LogExt P w w'' := by
  obtain ⟨d1, e1, k1⟩ := h1
  obtain ⟨d2, e2, k2⟩ := h2
  refine ⟨d1 ++ d2, ?_, ?_⟩
  · rw [e2, e1, List.append_assoc]
  · intro e he
    rcases List.mem_append.mp he with h | h
    · exact k1 e h
    · exact k2 e h

theorem opRead_ext {P : Ev → Bool} (fault : Nat → Bool) (mk : String → Bool → Ev)
    (w : W) (p : String) (h : ∀ b, P (mk p b) = true) :
    LogExt P w (opRead fault mk w p).2 :=
  ⟨[mk p (opRead fault mk w p).1.isSome], rfl, by simp [h]⟩

theorem opUpdate_ext {P : Ev → Bool} (fault : Nat → Bool) (w : W) (p c : String)
    (sha : Nat) (h : ∀ b, P (Ev.update p b) = true) :
    LogExt P w (opUpdate fault w p c sha).2 := by
  unfold opUpdate
  dsimp only
  split
  · exact ⟨[Ev.update p true], rfl, by simp [h]⟩
  · exact ⟨[Ev.update p false], rfl, by simp [h]⟩

theorem opCreate_ext {P : Ev → Bool} (fault : Nat → Bool) (mk : String → Bool → Ev)
    (w : W) (p c : String) (h : ∀ b, P (mk p b) = true) :
    LogExt P w (opCreate fault mk w p c).2 := by
  unfold opCreate
  dsimp only
  split
  · exact ⟨[mk p true], rfl, by simp [h]⟩
  · exact ⟨[mk p false], rfl, by simp [h]⟩

theorem opDelete_ext {P : Ev → Bool} (fault : Nat → Bool) (w : W) (p : String)
    (sha : Nat) (h : ∀ b, P (Ev.delete p b) = true) :
    LogExt P w (opDelete fault w p sha).2 := by
  unfold opDelete
  dsimp only
  split
  · exact ⟨[Ev.delete p true], rfl, by simp [h]⟩
  · exact ⟨[Ev.delete p false], rfl, by simp [h]⟩

theorem processFile_ext (fault : Nat → Bool) (w : W) (p c : String) :
    LogExt Ev.isFileEv w (processFile fault w p c).2 := by
  have hr : ∀ b, Ev.isFileEv (Ev.read p b) = true := fun _ => rfl
  have hu : ∀ b, Ev.isFileEv (Ev.update p b) = true := fun _ => rfl
  have hc : ∀ b, Ev.isFileEv (Ev.create p b) = true := fun _ => rfl
  have hd : ∀ b, Ev.isFileEv (Ev.delete p b) = true := fun _ => rfl
  unfold processFile
  dsimp only
  split
  · split
    · exact LogExt.trans (opRead_ext fault Ev.read w p hr)
        (opUpdate_ext fault _ p c _ hu)
    · split
      · split
        · exact LogExt.trans (LogExt.trans (LogExt.trans (LogExt.trans
            (opRead_ext fault Ev.read w p hr) (opUpdate_ext fault _ p c _ hu))
            (opRead_ext fault Ev.read _ p hr)) (opDelete_ext fault _ p _ hd))
            (opCreate_ext fault Ev.create _ p c hc)
        · exact LogExt.trans (LogExt.trans (LogExt.trans
            (opRead_ext fault Ev.read w p hr) (opUpdate_ext fault _ p c _ hu))
            (opRead_ext fault Ev.read _ p hr)) (opDelete_ext fault _ p _ hd)
      · exact LogExt.trans (LogExt.trans
          (opRead_ext fault Ev.read w p hr) (opUpdate_ext fault _ p c _ hu))
          (opRead_ext fault Ev.read _ p hr)
  · exact LogExt.trans (opRead_ext fault Ev.read w p hr)
      (opCreate_ext fault Ev.create _ p c hc)

theorem reconcile_ext (fault : Nat → Bool) :
    ∀ (F : List (String × String)) (w : W),
      LogExt Ev.isFileEv w (reconcile fault w F).2 := by
  intro F
  induction F with
  | nil => intro w; exact LogExt.refl _ w
  | cons pc t ih =>
    intro w
    obtain ⟨p, c⟩ := pc
    unfold reconcile
    dsimp only
    split
    · exact LogExt.trans (processFile_ext fault w p c) (ih _)
    · split
      · exact processFile_ext fault w p c
      · exact LogExt.trans (processFile_ext fault w p c) (ih _)

theorem ensureDefault_ext (fault : Nat → Bool) (w : W)
    (files : List (String × String)) (path dflt : String) :
    LogExt (Ev.isScaffoldFor path) w (ensureDefault fault w files path dflt) := by
  have hr : ∀ b, Ev.isScaffoldFor path (Ev.sRead path b) = true := fun b => by
    simp [Ev.isScaffoldFor]
  have hc : ∀ b, Ev.isScaffoldFor path (Ev.sCreate path b) = true := fun b => by
    simp [Ev.isScaffoldFor]
  unfold ensureDefault
  dsimp only
  split
  · exact LogExt.refl _ w
  · split
    · exact opRead_ext fault Ev.sRead w path hr
    · exact LogExt.trans (opRead_ext fault Ev.sRead w path hr)
        (opCreate_ext fault Ev.sCreate _ path dflt hc)

theorem reconcile_cons (fault : Nat → Bool) (p c : String)
    (rest : List (String × String)) (w : W) :
    reconcile fault w ((p, c) :: rest) =
      (if (processFile fault w p c).1 then
        reconcile fault (processFile fault w p c).2 rest
      else if p = "index.html" then
        (some ("Critical file " ++ p ++ " failed to update"), (processFile fault w p c).2)
      else reconcile fault (processFile fault w p c).2 rest) := rfl

theorem reconcile_append (fault : Nat → Bool) :
    ∀ (pre rest : List (String × String)) (w : W),
      ((reconcile fault w pre).1 = none →
        reconcile fault w (pre ++ rest) =
          reconcile fault (reconcile fault w pre).2 rest) ∧
      (∀ e, (reconcile fault w pre).1 = some e →
        reconcile fault w (pre ++ rest) = (some e, (reconcile fault w pre).2)) := by
  intro pre
  induction pre with
  | nil =>
    intro rest w
    refine ⟨fun _ => rfl, fun e he => ?_⟩
    simp [reconcile] at he
  | cons pc t ih =>
    intro rest w
    obtain ⟨p, c⟩ := pc
    rw [List.cons_append, reconcile_cons fault p c (t ++ rest) w,
      reconcile_cons fault p c t w]
    by_cases h1 : (processFile fault w p c).1 = true
    · rw [if_pos h1, if_pos h1]
      exact ih rest _
    · rw [if_neg h1, if_neg h1]
      by_cases hp : p = "index.html"
      · rw [if_pos hp, if_pos hp]
        refine ⟨fun hnone => ?_, fun e he => ?_⟩
        · simp at hnone
        · have he2 : ("Critical file " ++ p ++ " failed to update") = e := by
            simpa using he
          rw [← he2]
      · rw [if_neg hp, if_neg hp]
        exact ih rest _

theorem createOrUpdateRepo_ok (env : GhEnv) (taskName : String)
    (files : List (String × String)) (createNew : Bool) (repoUrl : Option String)
    (u tk name : String) (w1 : W)
    (hu : env.githubUser = some u) (htk : env.githubToken = some tk)
    (hu0 : u ≠ "") (htk0 : tk ≠ "")
    (hres : resolveName env taskName createNew repoUrl = Except.ok name)
    (hrec : reconcile env.fault (W.init env) files = (none, w1)) :
    createOrUpdateRepo env taskName files createNew repoUrl =
      (Except.ok ⟨env.htmlUrl name, commitShaOf env.commits,
        "https://" ++ u ++ ".github.io/" ++ name ++ "/"⟩,
       syncTail env files createNew name w1) := by
  unfold createOrUpdateRepo
  rw [hu, htk]
  dsimp only
  rw [if_neg (not_or.mpr ⟨hu0, htk0⟩), hres]
  dsimp only
  rw [hrec]

theorem createOrUpdateRepo_resolveError (env : GhEnv) (taskName : String)
    (files : List (String × String)) (createNew : Bool) (repoUrl : Option String)
    (u tk e : String)
    (hu : env.githubUser = some u) (htk : env.githubToken = some tk)
    (hu0 : u ≠ "") (htk0 : tk ≠ "")
    (hres : resolveName env taskName createNew repoUrl = Except.error e) :
    createOrUpdateRepo env taskName files createNew repoUrl =
      (Except.error e, W.init env) := by
  unfold createOrUpdateRepo
  rw [hu, htk]
  dsimp only
  rw [if_neg (not_or.mpr ⟨hu0, htk0⟩), hres]

theorem createOrUpdateRepo_reconcileError (env : GhEnv) (taskName : String)
    (files : List (String × String)) (createNew : Bool) (repoUrl : Option String)
    (u tk name e : String) (w1 : W)
    (hu : env.githubUser = some u) (htk : env.githubToken = some tk)
    (hu0 : u ≠ "") (htk0 : tk ≠ "")
    (hres : resolveName env taskName createNew repoUrl = Except.ok name)
    (hrec : reconcile env.fault (W.init env) files = (some e, w1)) :
    createOrUpdateRepo env taskName files createNew repoUrl = (Except.error e, w1) := by
  unfold createOrUpdateRepo
  rw [hu, htk]
  dsimp only
  rw [if_neg (not_or.mpr ⟨hu0, htk0⟩), hres]
  dsimp only
  rw [hrec]

theorem createOrUpdateRepo_ok_inv (env : GhEnv) (taskName : String)
    (files : List (String × String)) (createNew : Bool) (repoUrl : Option String)
    (r : SyncResult) (wf : W)
    (h : createOrUpdateRepo env taskName files createNew repoUrl = (Except.ok r, wf)) :
    ∃ u tk name w1,
      env.githubUser = some u ∧ env.githubToken = some tk ∧ ¬u = "" ∧ ¬tk = "" ∧
      resolveName env taskName createNew repoUrl = Except.ok name ∧
      reconcile env.fault (W.init env) files = (none, w1) ∧
      r = ⟨env.htmlUrl name, commitShaOf env.commits,
        "https://" ++ u ++ ".github.io/" ++ name ++ "/"⟩ ∧
      wf = syncTail env files createNew name w1 := by
  unfold createOrUpdateRepo at h
  cases hu : env.githubUser with
  | none => rw [hu] at h; simp at h
  | some u =>
    cases htk : env.githubToken with
    | none => rw [hu, htk] at h; simp at h
    | some tk =>
      rw [hu, htk] at h
      dsimp only at h
      by_cases hcred : u = "" ∨ tk = ""
      · rw [if_pos hcred] at h
        simp at h
      · rw [if_neg hcred] at h
        rw [not_or] at hcred
        obtain ⟨hu0, htk0⟩ := hcred
        cases hres : resolveName env taskName createNew repoUrl with
        | error e =>
          rw [hres] at h
          simp at h
        | ok name =>
          rw [hres] at h
          dsimp only at h
          cases hrec : reconcile env.fault (W.init env) files with
          | mk o w1 =>
            cases o with
            | some e =>
              rw [hrec] at h
              simp at h
            | none =>
              rw [hrec] at h
              dsimp only at h
              injection h with h1 h2
              injection h1 with h1
              exact ⟨u, tk, name, w1, rfl, rfl, hu0, htk0, rfl, rfl, h1.symm, h2.symm⟩

/-- Claim C7: the latest-revision read never fails the call — whenever
the call reaches it (credentials, resolution and reconciliation
succeeded), a raising or empty commit listing yields the sentinel
"unknown" as the revision field while the call still returns a
successful result whose repository URL and hosting URL are unaffected. -/
theorem c7_revision_sentinel (env : GhEnv) (taskName : String)
    (files : List (String × String)) (createNew : Bool) (repoUrl : Option String)
    (u tk name : String) (w1 : W)
    (hu : env.githubUser = some u) (htk : env.githubToken = some tk)
    (hu0 : u ≠ "") (htk0 : tk ≠ "")
    (hres : resolveName env taskName createNew repoUrl = Except.ok name)
    (hrec : reconcile env.fault (W.init env) files = (none, w1))
    (hc : env.commits = none ∨ env.commits = some none) :
    (createOrUpdateRepo env taskName files createNew repoUrl).1 =
      Except.ok ⟨env.htmlUrl name, "unknown",
        "https://" ++ u ++ ".github.io/" ++ name ++ "/"⟩ := by
  rw [createOrUpdateRepo_ok env taskName files createNew repoUrl u tk name w1
    hu htk hu0 htk0 hres hrec]
  rcases hc with h | h <;> simp [h, commitShaOf]

/-- Witness for C7: a concrete CREATE-mode call whose commit listing
raises still returns success with the "unknown" revision. -/
theorem c7_revision_sentinel_witness :
    witEnvC.githubUser = some "u" ∧
    resolveName witEnvC "quiz-app" true none = Except.ok "quiz-app-20250101000000" ∧
    reconcile witEnvC.fault (W.init witEnvC) [("index.html", "<h/>")] =
      (none, ⟨[("index.html", ⟨"<h/>", 0⟩)], 1, 2,
        [Ev.read "index.html" false, Ev.create "index.html" true]⟩) ∧
    witEnvC.commits = none ∧
    (createOrUpdateRepo witEnvC "quiz-app" [("index.html", "<h/>")] true none).1 =
      Except.ok ⟨witEnvC.htmlUrl "quiz-app-20250101000000", "unknown",
        "https://" ++ "u" ++ ".github.io/" ++ "quiz-app-20250101000000" ++ "/"⟩ :=
  ⟨rfl, rfl, by decide, rfl,
   c7_revision_sentinel witEnvC "quiz-app" [("index.html", "<h/>")] true none
     "u" "t" "quiz-app-20250101000000"
     ⟨[("index.html", ⟨"<h/>", 0⟩)], 1, 2,
      [Ev.read "index.html" false, Ev.create "index.html" true]⟩
     rfl rfl (by decide) (by decide) rfl (by decide) (Or.inl rfl)⟩

/-- Claim C6: the scaffold step never touches a path the caller's
desired file set already contains (it is skipped entirely, emitting no
events and leaving the world unchanged); when the path is absent from
the desired set, existing remote content at the path is never modified
(the default is created only when the file does not already exist
remotely, whatever the fault schedule does), a fault-free run on an
absent path installs the default, and a scaffold failure never aborts
the call: a call that reached scaffolding still returns success. -/
theorem c6_scaffold_non_clobber (fault : Nat → Bool) (w : W)
    (files : List (String × String)) (path dflt : String) :
    ((files.map Prod.fst).contains path = true →
      ensureDefault fault w files path dflt = w) ∧
    ((lookupC w.remote path).isSome →
      lookupC (ensureDefault fault w files path dflt).remote path =
        lookupC w.remote path) ∧
    ((files.map Prod.fst).contains path = false → lookupC w.remote path = none →
      fault w.clk = false → fault (w.clk + 1) = false →
      lookupC (ensureDefault fault w files path dflt).remote path = some dflt) ∧
    (∀ (env : GhEnv) (taskName : String) (createNew : Bool) (repoUrl : Option String)
        (u tk name : String) (w1 : W),
      env.githubUser = some u → env.githubToken = some tk → u ≠ "" → tk ≠ "" →
      resolveName env taskName createNew repoUrl = Except.ok name →
      reconcile env.fault (W.init env) files = (none, w1) →
      ∃ r, (createOrUpdateRepo env taskName files createNew repoUrl).1 =
        Except.ok r) := by
  refine ⟨?_, ?_, ?_, ?_⟩
  · intro hcon
    have hcon2 : path ∈ files.map Prod.fst := by
      simpa using hcon
    simp [ensureDefault, hcon2]
  · intro hsome
    by_cases hcon2 : path ∈ files.map Prod.fst
    · simp [ensureDefault, hcon2]
    · obtain ⟨f, hf⟩ : ∃ f, findFile w.remote path = some f := by
        rw [lookupC] at hsome
        cases hff : findFile w.remote path with
        | some f => exact ⟨f, rfl⟩
        | none => rw [hff] at hsome; simp at hsome
      by_cases hflt : fault w.clk = true
      · simp [ensureDefault, opRead, opCreate, hcon2, hflt, hf]
      · rw [Bool.not_eq_true] at hflt
        simp [ensureDefault, opRead, hcon2, hflt, hf]
  · intro hcon hnone hflt1 hflt2
    have hcon2 : ¬path ∈ files.map Prod.fst := by
      simpa using hcon
    have hfn : findFile w.remote path = none := by
      rw [lookupC, Option.map_eq_none'] at hnone
      exact hnone
    simp [ensureDefault, opRead, opCreate, hcon2, hflt1, hflt2, hfn, lookupC,
      findFile_append_new path path ⟨dflt, w.ctr⟩ w.remote hfn]
  · intro env taskName createNew repoUrl u tk name w1 hu htk hu0 htk0 hres hrec
    exact ⟨_, by
      rw [createOrUpdateRepo_ok env taskName files createNew repoUrl u tk name w1
        hu htk hu0 htk0 hres hrec]⟩

/-- Witness for C6: on a desired set without `README.md`, a fault-free
scaffold over a remote lacking the file installs the default content. -/
theorem c6_scaffold_non_clobber_witness :
    (([("index.html", "x")].map Prod.fst).contains "README.md" = false) ∧
    lookupC witW.remote "README.md" = none ∧
    noFault witW.clk = false ∧ noFault (witW.clk + 1) = false ∧
    lookupC (ensureDefault noFault witW [("index.html", "x")]
      "README.md" "# d").remote "README.md" = some "# d" :=
  ⟨by decide, by decide, rfl, rfl,
   (c6_scaffold_non_clobber noFault witW [("index.html", "x")] "README.md" "# d").2.2.1
     (by decide) (by decide) rfl rfl⟩

/-- Claim C10: every successful synchronization call returns a hosting
URL equal to the string built as https://{user}.github.io/{name}/ from
the resolved repository name, and the whole returned result is
unchanged under any outcome of the Pages enable / rebuild requests —
the hosting layer is never consulted before the URL is reported. -/
theorem c10_pages_url_computed (env : GhEnv) (taskName : String)
    (files : List (String × String)) (createNew : Bool) (repoUrl : Option String)
    (r : SyncResult) (wf : W) (u name : String)
    (h : createOrUpdateRepo env taskName files createNew repoUrl = (Except.ok r, wf))
    (hu : env.githubUser = some u)
    (hname : resolveName env taskName createNew repoUrl = Except.ok name) :
    r.pagesUrl = "https://" ++ u ++ ".github.io/" ++ name ++ "/" ∧
    (∀ pe pb, (createOrUpdateRepo
        { env with pagesEnable := pe, pagesBuild := pb }
        taskName files createNew repoUrl).1 = Except.ok r) := by
  obtain ⟨u', tk, name', w1, hu', htk, hu0, htk0, hres, hrec, hr, hwf⟩ :=
    createOrUpdateRepo_ok_inv env taskName files createNew repoUrl r wf h
  have huu : u' = u := by
    rw [hu'] at hu
    exact Option.some.inj hu
  have hnn : name' = name := by
    rw [hres] at hname
    exact Except.ok.inj hname
  constructor
  · rw [hr]
    dsimp only
    rw [huu, hnn]
  · intro pe pb
    have h2 := createOrUpdateRepo_ok
      { env with pagesEnable := pe, pagesBuild := pb }
      taskName files createNew repoUrl u' tk name' w1 hu' htk hu0 htk0 hres hrec
    rw [h2, hr]

/-- Witness for C10: a concrete successful CREATE-mode run whose
hosting URL equals the computed string. -/
theorem c10_pages_url_computed_witness :
    createOrUpdateRepo witEnvC "quiz-app" [("index.html", "<h/>")] true none =
      (Except.ok ⟨witEnvC.htmlUrl "quiz-app-20250101000000", "unknown",
        "https://u.github.io/quiz-app-20250101000000/"⟩,
       (createOrUpdateRepo witEnvC "quiz-app" [("index.html", "<h/>")] true none).2) ∧
    witEnvC.githubUser = some "u" ∧
    resolveName witEnvC "quiz-app" true none = Except.ok "quiz-app-20250101000000" ∧
    (⟨witEnvC.htmlUrl "quiz-app-20250101000000", "unknown",
        "https://u.github.io/quiz-app-20250101000000/"⟩ : SyncResult).pagesUrl =
      "https://" ++ "u" ++ ".github.io/" ++ "quiz-app-20250101000000" ++ "/" :=
  ⟨rfl, rfl, rfl,
   (c10_pages_url_computed witEnvC "quiz-app" [("index.html", "<h/>")] true none
     ⟨witEnvC.htmlUrl "quiz-app-20250101000000", "unknown",
      "https://u.github.io/quiz-app-20250101000000/"⟩
     (createOrUpdateRepo witEnvC "quiz-app" [("index.html", "<h/>")] true none).2
     "u" "quiz-app-20250101000000" rfl rfl rfl).1⟩

theorem find?_first {α : Type} (p : α → Bool) :
    ∀ (pre : List α) (r : α) (post : List α),
      (∀ x ∈ pre, p x = false) → p r = true →
      (pre ++ r :: post).find? p = some r := by
  intro pre
  induction pre with
  | nil =>
    intro r post _ hr
    simp [List.find?_cons_of_pos _ hr]
  | cons a t ih =>
    intro r post hall hr
    have ha : p a = false := hall a (List.mem_cons_self _ _)
    rw [List.cons_append, List.find?_cons_of_neg _ (by simp [ha])]
    exact ih r post (fun x hx => hall x (List.mem_cons_of_mem _ hx)) hr

/-- Claim C5: in UPDATE mode, a supplied URL resolves directly through
its trailing path segment when the fetch succeeds; a failed fetch, or a
missing URL, falls back to scanning the caller's most-recently-updated
repository listing for the first name with the task identifier as a
prefix; and when nothing matches, the call fails with the resolution
error before any file operation (its event log is empty). -/
theorem c5_resolution_fallback_order (env : GhEnv) (taskName url : String) :
    (env.getRepoOk (lastSeg url) = true →
      resolveName env taskName false (some url) = Except.ok (lastSeg url)) ∧
    (env.getRepoOk (lastSeg url) = false →
      resolveName env taskName false (some url) = searchByTask env taskName) ∧
    (resolveName env taskName false none = searchByTask env taskName) ∧
    (∀ pre r post, env.listReposOk = true →
      env.userRepos = pre ++ r :: post →
      (∀ r2 ∈ pre, strIsPrefixOf taskName r2 = false) → strIsPrefixOf taskName r = true →
      searchByTask env taskName = Except.ok r) ∧
    (∀ (files : List (String × String)) (u tk : String),
      env.listReposOk = true →
      (∀ r2 ∈ env.userRepos, strIsPrefixOf taskName r2 = false) →
      env.getRepoOk (lastSeg url) = false →
      env.githubUser = some u → env.githubToken = some tk → u ≠ "" → tk ≠ "" →
      (createOrUpdateRepo env taskName files false (some url)).1 =
        Except.error ("Failed to find repo: Could not find repo for task " ++ taskName) ∧
      (createOrUpdateRepo env taskName files false (some url)).2.log = []) := by
  refine ⟨?_, ?_, rfl, ?_, ?_⟩
  · intro h
    simp [resolveName, h]
  · intro h
    simp [resolveName, h]
  · intro pre r post hl hrepos hall hr
    rw [searchByTask, if_pos hl, hrepos,
      find?_first (fun r2 => strIsPrefixOf taskName r2) pre r post hall hr]
  · intro files u tk hl hall hg hu htk hu0 htk0
    have hfind : env.userRepos.find? (fun r2 => strIsPrefixOf taskName r2) = none :=
      List.find?_eq_none.mpr (fun x hx => by simp [hall x hx])
    have hsearch : searchByTask env taskName =
        Except.error ("Failed to find repo: Could not find repo for task " ++ taskName) := by
      rw [searchByTask, if_pos hl, hfind]
    have hres : resolveName env taskName false (some url) =
        Except.error ("Failed to find repo: Could not find repo for task " ++ taskName) := by
      simp [resolveName, hg, hsearch]
    rw [createOrUpdateRepo_resolveError env taskName files false (some url) u tk _
      hu htk hu0 htk0 hres]
    exact ⟨rfl, rfl⟩

/-- Witness for C5: a concrete URL resolving directly, and a concrete
no-match UPDATE call failing fatally with an empty event log. -/
theorem c5_resolution_fallback_order_witness :
    lastSeg "https://g/u/task-1" = "task-1" ∧
    witEnvU.getRepoOk (lastSeg "https://g/u/task-1") = true ∧
    resolveName witEnvU "task" false (some "https://g/u/task-1") =
      Except.ok "task-1" ∧
    witEnvN.listReposOk = true ∧
    witEnvN.userRepos = ["other-repo"] ∧
    strIsPrefixOf "task" "other-repo" = false ∧
    witEnvN.getRepoOk (lastSeg "x") = false ∧
    (createOrUpdateRepo witEnvN "task" [] false (some "x")).1 =
      Except.error ("Failed to find repo: Could not find repo for task " ++ "task") ∧
    (createOrUpdateRepo witEnvN "task" [] false (some "x")).2.log = [] :=
  ⟨by decide, rfl,
   (c5_resolution_fallback_order witEnvU "task" "https://g/u/task-1").1 rfl,
   rfl, rfl, by decide, rfl,
   ((c5_resolution_fallback_order witEnvN "task" "x").2.2.2.2 [] "u" "t"
     rfl (by decide) rfl rfl rfl (by decide) (by decide)).1,
   ((c5_resolution_fallback_order witEnvN "task" "x").2.2.2.2 [] "u" "t"
     rfl (by decide) rfl rfl rfl (by decide) (by decide)).2⟩

theorem commitsRead_mem_syncTail (env : GhEnv) (files : List (String × String))
    (createNew : Bool) (name : String) (w1 : W) :
    Ev.commitsRead (commitShaOf env.commits) ∈
      (syncTail env files createNew name w1).log := by
  unfold syncTail
  dsimp only
  cases createNew with
  | true => simp
  | false => simp

/-- Claim C2: if the critical entry-point file `index.html` fails both
its primary attempt and its compensating attempt, the whole call aborts
with an error whose accumulated trace holds only reconciliation-loop
events — no scaffold, hosting or commit step ever runs; any other file
failing the same way is skipped, the loop continues with the remaining
files, and when they succeed the call still completes successfully,
scaffold and all, with the commit read in its trace. -/
theorem c2_critical_file_fatality (env : GhEnv) (taskName : String)
    (createNew : Bool) (repoUrl : Option String) (u tk name : String)
    (hu : env.githubUser = some u) (htk : env.githubToken = some tk)
    (hu0 : u ≠ "") (htk0 : tk ≠ "")
    (hres : resolveName env taskName createNew repoUrl = Except.ok name) :
    (∀ (pre post : List (String × String)) (c : String) (w1 : W),
      reconcile env.fault (W.init env) pre = (none, w1) →
      (processFile env.fault w1 "index.html" c).1 = false →
      (createOrUpdateRepo env taskName (pre ++ ("index.html", c) :: post)
          createNew repoUrl).1 =
        Except.error "Critical file index.html failed to update" ∧
      (∀ e ∈ (createOrUpdateRepo env taskName (pre ++ ("index.html", c) :: post)
          createNew repoUrl).2.log, e.isFileEv = true)) ∧
    (∀ (p : String) (pre post : List (String × String)) (c : String) (w1 : W),
      p ≠ "index.html" →
      reconcile env.fault (W.init env) pre = (none, w1) →
      (processFile env.fault w1 p c).1 = false →
      reconcile env.fault (W.init env) (pre ++ (p, c) :: post) =
        reconcile env.fault (processFile env.fault w1 p c).2 post ∧
      (∀ w2, reconcile env.fault (processFile env.fault w1 p c).2 post = (none, w2) →
        (createOrUpdateRepo env taskName (pre ++ (p, c) :: post)
            createNew repoUrl).1 =
          Except.ok ⟨env.htmlUrl name, commitShaOf env.commits,
            "https://" ++ u ++ ".github.io/" ++ name ++ "/"⟩ ∧
        Ev.commitsRead (commitShaOf env.commits) ∈
          (createOrUpdateRepo env taskName (pre ++ (p, c) :: post)
            createNew repoUrl).2.log)) := by
  constructor
  · intro pre post c w1 hpre hfail
    have hstep := (reconcile_append env.fault pre (("index.html", c) :: post)
      (W.init env)).1
    rw [hpre] at hstep
    have hrec2 : reconcile env.fault (W.init env) (pre ++ ("index.html", c) :: post) =
        (some ("Critical file " ++ "index.html" ++ " failed to update"),
         (processFile env.fault w1 "index.html" c).2) := by
      rw [hstep rfl, reconcile_cons, if_neg (by simp [hfail]), if_pos rfl]
    have horch := createOrUpdateRepo_reconcileError env taskName
      (pre ++ ("index.html", c) :: post) createNew repoUrl u tk name
      ("Critical file " ++ "index.html" ++ " failed to update")
      ((processFile env.fault w1 "index.html" c).2)
      hu htk hu0 htk0 hres hrec2
    constructor
    · rw [horch]
      dsimp only
      exact congrArg Except.error (by decide)
    · intro e he
      rw [horch] at he
      obtain ⟨δ, hδ, hk⟩ := reconcile_ext env.fault
        (pre ++ ("index.html", c) :: post) (W.init env)
      rw [hrec2] at hδ
      apply hk
      have hδ2 : (processFile env.fault w1 "index.html" c).2.log = δ := by
        simpa [W.init] using hδ
      rwa [hδ2] at he
  · intro p pre post c w1 hp hpre hfail
    have hstep := (reconcile_append env.fault pre ((p, c) :: post) (W.init env)).1
    rw [hpre] at hstep
    have hrec2 : reconcile env.fault (W.init env) (pre ++ (p, c) :: post) =
        reconcile env.fault (processFile env.fault w1 p c).2 post := by
      rw [hstep rfl, reconcile_cons, if_neg (by simp [hfail]), if_neg hp]
    refine ⟨hrec2, ?_⟩
    intro w2 hrest
    have hrec3 : reconcile env.fault (W.init env) (pre ++ (p, c) :: post) =
        (none, w2) := by
      rw [hrec2, hrest]
    have horch := createOrUpdateRepo_ok env taskName (pre ++ (p, c) :: post)
      createNew repoUrl u tk name w2 hu htk hu0 htk0 hres hrec3
    constructor
    · rw [horch]
    · rw [horch]
      exact commitsRead_mem_syncTail env (pre ++ (p, c) :: post) createNew name w2

/-- Witness for C2: under an all-faults schedule, a CREATE-mode call
whose only desired file is `index.html` aborts with the critical-file
error. -/
theorem c2_critical_file_fatality_witness :
    resolveName witEnvF "task" true none = Except.ok "task-ts" ∧
    reconcile witEnvF.fault (W.init witEnvF) [] = (none, W.init witEnvF) ∧
    (processFile witEnvF.fault (W.init witEnvF) "index.html" "x").1 = false ∧
    (createOrUpdateRepo witEnvF "task" [("index.html", "x")] true none).1 =
      Except.error "Critical file index.html failed to update" :=
  ⟨rfl, rfl, by decide,
   ((c2_critical_file_fatality witEnvF "task" true none "u" "t" "task-ts"
     rfl rfl (by decide) (by decide) rfl).1 [] [] "x" (W.init witEnvF)
     rfl (by decide)).1⟩

/-- Claim C4 counterexample: a concrete UPDATE-mode call's trace is
scaffold reads, then the commit read, then the Pages rebuild — the
hosting action follows the revision read, contradicting the claim that
in both modes the hosting action precedes it. -/
theorem c4_orchestrator_ordering_counterexample :
    (createOrUpdateRepo witEnvU "task" [] false (some "https://g/u/task-1")).2.log =
      [Ev.sRead "README.md" true, Ev.sRead "LICENSE" true,
       Ev.commitsRead "abc", Ev.pagesBuild true] ∧
    (((createOrUpdateRepo witEnvU "task" [] false
        (some "https://g/u/task-1")).2.log.findIdx?
        (fun e => e.isHostingEv)).isSome = true) ∧
    (((createOrUpdateRepo witEnvU "task" [] false
        (some "https://g/u/task-1")).2.log.findIdx?
        (fun e => e.isCommitsEv)).getD 99 <
      ((createOrUpdateRepo witEnvU "task" [] false
        (some "https://g/u/task-1")).2.log.findIdx?
        (fun e => e.isHostingEv)).getD 0) := by
  refine ⟨by decide, by decide, by decide⟩

/-- Claim C4 (amended): every successful call's trace decomposes, in
order, into the user-file reconciliation events, the README scaffold
events, the LICENSE scaffold events, the Pages enablement (CREATE mode
only), the commit read, and the Pages rebuild (UPDATE mode only); in
CREATE mode the hosting action precedes the revision read, but in
UPDATE mode the rebuild trigger follows it. -/
theorem c4_orchestrator_phase_order (env : GhEnv) (taskName : String)
    (files : List (String × String)) (createNew : Bool) (repoUrl : Option String)
    (r : SyncResult) (wf : W)
    (h : createOrUpdateRepo env taskName files createNew repoUrl = (Except.ok r, wf)) :
    ∃ l1 l2a l2b l3 l4 l5 : List Ev,
      wf.log = l1 ++ l2a ++ l2b ++ l3 ++ l4 ++ l5 ∧
      (∀ e ∈ l1, e.isFileEv = true) ∧
      (∀ e ∈ l2a, e.isScaffoldFor "README.md" = true) ∧
      (∀ e ∈ l2b, e.isScaffoldFor "LICENSE" = true) ∧
      l3 = (if createNew then [Ev.pagesEnable (pagesOk env.pagesEnable)] else []) ∧
      l4 = [Ev.commitsRead (commitShaOf env.commits)] ∧
      l5 = (if createNew then [] else [Ev.pagesBuild (pagesOk env.pagesBuild)]) := by
  obtain ⟨u, tk, name, w1, hu, htk, hu0, htk0, hres, hrec, hr, hwf⟩ :=
    createOrUpdateRepo_ok_inv env taskName files createNew repoUrl r wf h
  obtain ⟨d1, h1, k1⟩ := reconcile_ext env.fault files (W.init env)
  rw [hrec] at h1
  have h1' : w1.log = d1 := by
    simpa [W.init] using h1
  obtain ⟨d2a, h2, k2⟩ := ensureDefault_ext env.fault w1 files "README.md"
    (defaultReadme name)
  obtain ⟨d2b, h3, k3⟩ := ensureDefault_ext env.fault
    (ensureDefault env.fault w1 files "README.md" (defaultReadme name))
    files "LICENSE" licenseText
  refine ⟨d1, d2a, d2b, _, _, _, ?_, k1, k2, k3, rfl, rfl, rfl⟩
  rw [hwf]
  unfold syncTail
  dsimp only
  cases createNew with
  | true => simp [h3, h2, h1', List.append_assoc]
  | false => simp [h3, h2, h1', List.append_assoc]

/-- Witness for C4 (amended) at a concrete successful CREATE-mode run. -/
theorem c4_orchestrator_phase_order_witness :
    createOrUpdateRepo witEnvC "quiz-app" [("index.html", "<h/>")] true none =
      (Except.ok ⟨witEnvC.htmlUrl "quiz-app-20250101000000", "unknown",
        "https://u.github.io/quiz-app-20250101000000/"⟩,
       (createOrUpdateRepo witEnvC "quiz-app" [("index.html", "<h/>")] true none).2) ∧
    ∃ l1 l2a l2b l3 l4 l5 : List Ev,
      (createOrUpdateRepo witEnvC "quiz-app" [("index.html", "<h/>")] true none).2.log =
        l1 ++ l2a ++ l2b ++ l3 ++ l4 ++ l5 ∧
      (∀ e ∈ l1, e.isFileEv = true) ∧
      (∀ e ∈ l2a, e.isScaffoldFor "README.md" = true) ∧
      (∀ e ∈ l2b, e.isScaffoldFor "LICENSE" = true) ∧
      l3 = (if true then [Ev.pagesEnable (pagesOk witEnvC.pagesEnable)] else []) ∧
      l4 = [Ev.commitsRead (commitShaOf witEnvC.commits)] ∧
      l5 = (if true then [] else [Ev.pagesBuild (pagesOk witEnvC.pagesBuild)]) :=
  ⟨rfl,
   c4_orchestrator_phase_order witEnvC "quiz-app" [("index.html", "<h/>")] true none
     ⟨witEnvC.htmlUrl "quiz-app-20250101000000", "unknown",
      "https://u.github.io/quiz-app-20250101000000/"⟩
     (createOrUpdateRepo witEnvC "quiz-app" [("index.html", "<h/>")] true none).2
     rfl⟩

theorem validateHtml_spec (s : Chars) :
    ("<!DOCTYPE html>".data.isPrefixOf (validateHtml s) = true ∨
      "<html>".data.isPrefixOf (validateHtml s) = true) ∧
    "</html>".data.isSuffixOf (validateHtml s) = true := by
  have hpre : ∀ (a b t : Chars), a.isPrefixOf b = true → a.isPrefixOf (b ++ t) = true := by
    intro a b t hab
    rw [List.isPrefixOf_iff_prefix] at hab ⊢
    exact hab.trans (List.prefix_append b t)
  have hsuf : ∀ (a b t : Chars), a.isSuffixOf b = true → a.isSuffixOf (t ++ b) = true := by
    intro a b t hab
    rw [List.isSuffixOf_iff_suffix] at hab ⊢
    exact hab.trans (List.suffix_append t b)
  unfold validateHtml
  dsimp only
  by_cases h1 : ("<!DOCTYPE html>".data.isPrefixOf s ||
      "<html>".data.isPrefixOf s) = true
  · rw [if_pos h1]
    by_cases h2 : "</html>".data.isSuffixOf s = true
    · rw [if_pos h2]
      exact ⟨by rcases Bool.or_eq_true_iff.mp h1 with hp | hp; exacts [Or.inl hp, Or.inr hp], h2⟩
    · rw [if_neg h2]
      refine ⟨?_, hsuf "</html>".data "\n</html>".data s (by decide)⟩
      rcases Bool.or_eq_true_iff.mp h1 with hp | hp
      · exact Or.inl (hpre _ s _ hp)
      · exact Or.inr (hpre _ s _ hp)
  · rw [if_neg h1]
    have hend : "</html>".data.isSuffixOf
        ("<!DOCTYPE html>\n<html>\n".data ++ s ++ "\n</html>".data) = true := by
      rw [List.append_assoc]
      exact hsuf "</html>".data ("\n</html>".data) ("<!DOCTYPE html>\n<html>\n".data ++ s)
        (by decide)
    rw [if_pos hend]
    refine ⟨Or.inl ?_, hend⟩
    exact hpre "<!DOCTYPE html>".data "<!DOCTYPE html>\n<html>\n".data
      (s ++ "\n</html>".data) (by decide)

theorem validateReadme_spec (s : Chars) :
    "#".data.isPrefixOf (validateReadme s) = true := by
  have hpre : ∀ (a b t : Chars), a.isPrefixOf b = true → a.isPrefixOf (b ++ t) = true := by
    intro a b t hab
    rw [List.isPrefixOf_iff_prefix] at hab ⊢
    exact hab.trans (List.prefix_append b t)
  unfold validateReadme
  dsimp only
  by_cases h1 : "#".data.isPrefixOf s = true
  · rw [if_pos h1]
    split
    · exact h1
    · exact hpre _ s _ h1
  · rw [if_neg h1]
    have hp : "#".data.isPrefixOf ("# Application\n\n".data ++ s) = true :=
      hpre "#".data "# Application\n\n".data s (by decide)
    split
    · exact hp
    · exact hpre _ _ _ hp

/-- Claim C9: whenever the generator's extraction succeeds, the returned
mapping has exactly the keys `index.html` and `README.md` (so every
desired file set handed to the synchronizer on the success path contains
the critical entry point), the HTML value starts with a document marker
and ends with the closing tag, and the README value starts with `#`. -/
theorem c9_generator_output_shape (raw h r : Chars)
    (he : extractFiles raw = some (h, r)) :
    generateFiles raw = some [("index.html", h), ("README.md", r)] ∧
    (∀ fs, generateFiles raw = some fs →
      fs.map Prod.fst = ["index.html", "README.md"] ∧
      "index.html" ∈ fs.map Prod.fst) ∧
    ("<!DOCTYPE html>".data.isPrefixOf h = true ∨
      "<html>".data.isPrefixOf h = true) ∧
    "</html>".data.isSuffixOf h = true ∧
    "#".data.isPrefixOf r = true := by
  have hgen : generateFiles raw = some [("index.html", h), ("README.md", r)] := by
    rw [generateFiles, he]
    rfl
  refine ⟨hgen, ?_, ?_⟩
  · intro fs hfs
    rw [hgen] at hfs
    injection hfs with hfs
    rw [← hfs]
    exact ⟨rfl, by simp⟩
  · unfold extractFiles at he
    dsimp only at he
    split at he
    · simp at he
    · injection he with he2
      injection he2 with hh hr
      rw [← hh, ← hr]
      exact ⟨(validateHtml_spec _).1, (validateHtml_spec _).2, validateReadme_spec _⟩

/-- Witness for C9 on a concrete model response holding an HTML document
followed by a README heading. -/
theorem c9_generator_output_shape_witness :
    extractFiles "<!DOCTYPE html><b>x</b></html>\n# T\nbody".data =
      some ("<!DOCTYPE html><b>x</b></html>".data,
        "# T\nbody\n\n## License\n\nMIT License\n\nCopyright (c) 2025".data) ∧
    generateFiles "<!DOCTYPE html><b>x</b></html>\n# T\nbody".data =
      some [("index.html", "<!DOCTYPE html><b>x</b></html>".data),
        ("README.md", "# T\nbody\n\n## License\n\nMIT License\n\nCopyright (c) 2025".data)] ∧
    ("<!DOCTYPE html>".data.isPrefixOf "<!DOCTYPE html><b>x</b></html>".data = true ∨
      "<html>".data.isPrefixOf "<!DOCTYPE html><b>x</b></html>".data = true) ∧
    "</html>".data.isSuffixOf "<!DOCTYPE html><b>x</b></html>".data = true ∧
    "#".data.isPrefixOf
      "# T\nbody\n\n## License\n\nMIT License\n\nCopyright (c) 2025".data = true := by
  have h := c9_generator_output_shape
    "<!DOCTYPE html><b>x</b></html>\n# T\nbody".data
    "<!DOCTYPE html><b>x</b></html>".data
    "# T\nbody\n\n## License\n\nMIT License\n\nCopyright (c) 2025".data (by decide)
  exact ⟨by decide, h.1, h.2.2.1, h.2.2.2.1, h.2.2.2.2⟩
